import Mathlib

/-!
Shallow embedding of the dependency-injection container from
markeasting/dependency-injection.

The embedding follows `src/src/Container.ts` (registration, override,
build, lazy resolution and instance caching, `createInstance`) and
`src/src/ExtendableContainer.ts` / `src/src/index.ts` (extension bundles,
`setParameter` / `getParameter`), together with the error taxonomy of
`src/src/errors.ts` and the `Lifetime` enum of `src/src/types.ts`.

JavaScript classes are modelled as opaque identities carrying a `name`
string (the `ctor.name` used by the container) and an `arity`
(`ctor.length`, the declared constructor parameter count).  JavaScript
values that can occur as dependency specs are modelled by `Value`;
constructed service instances live on an explicit heap indexed by
allocation order, so reference equality of instances is equality of heap
references.  Recursive resolution is written with explicit fuel; `fuel = 0`
surfaces as the distinguished outcome `outOfFuel`, which corresponds to
the unbounded recursion the JavaScript code would perform on cyclic
graphs.
-/

namespace DI

/-- A JavaScript class identity: `id` distinguishes classes, `name` is
`ctor.name` and `arity` is `ctor.length` (declared constructor
parameter count). -/
structure ClassType where
  id : Nat
  name : String
  arity : Nat
deriving DecidableEq, Repr

/-- Service lifetime, from `src/src/types.ts` (`Lifetime` enum). -/
inductive Lifetime where
  | SHARED
  | TRANSIENT
deriving DecidableEq, Repr

/-- JavaScript values as they occur in the container: primitives, literal
objects (with an optional `name` own-property and a tag distinguishing
distinct literals), class references, heap references to constructed
instances, and the container itself (which self-registers). -/
inductive Value where
  | vundefined
  | vnull
  | vnum (n : Int)
  | vbool (b : Bool)
  | vstr (s : String)
  | vlit (nameProp : Option String) (tag : Nat)
  | vclass (c : ClassType)
  | vinst (ref : Nat)
  | vcontainer
deriving DecidableEq, Repr

/-- The error taxonomy of `src/src/errors.ts`, plus `outOfFuel` marking
exhaustion of the explicit recursion fuel (the JavaScript original would
recurse without bound there). -/
inductive DIError where
  | argumentCount (c : ClassType) (expected given : Nat)
  | cyclicalDependency (c : ClassType)
  | containerNotReady
  | overrideUser
  | serviceNotFound (v : Value)
  | parameterNotFound (k : String)
  | outOfFuel
deriving DecidableEq, Repr

/-- A constructed instance on the heap: its class, the constructor
arguments it received, and its mutable fields. -/
structure Obj where
  cls : ClassType
  args : List Value
  fields : String → Value

/-- Pointwise function-map update. -/
def fupd {α β : Type} [DecidableEq α] (m : α → β) (k : α) (v : β) : α → β :=
  fun x => if x = k then v else m x

/-- JavaScript `Map.set` on an insertion-ordered association list:
an existing key keeps its position, a new key is appended. -/
def alSet {α β : Type} [DecidableEq α] : List (α × β) → α → β → List (α × β)
  | [], k, v => [(k, v)]
  | (k1, v1) :: rest, k, v =>
    if k1 = k then (k, v) :: rest else (k1, v1) :: alSet rest k v

/-- JavaScript `Map.get` on an association list. -/
def alGet {α β : Type} [DecidableEq α] : List (α × β) → α → Option β
  | [], _ => none
  | (k1, v1) :: rest, k => if k1 = k then some v1 else alGet rest k

/-- Truthiness of `d?.name` in `createInstance`
(`src/src/Container.ts`): class references have their class name
(truthy iff nonempty); literal objects may carry a `name` own-property;
primitives, `null`/`undefined`, instances and the container have no
truthy `name`. -/
def truthyName : Value → Bool
  | .vclass c => c.name != ""
  | .vlit (some nm) _ => nm != ""
  | _ => false

/-- General JavaScript truthiness, used by `getParameter`'s
`!this.parameters[key]` check and `addExtension`'s `if (config)`. -/
def truthyV : Value → Bool
  | .vundefined => false
  | .vnull => false
  | .vnum n => n != 0
  | .vbool b => b
  | .vstr s => s != ""
  | _ => true

/-- The container state.  `services` maps a class to `none` (never
registered), `some none` (registered, Instance Slot empty / `null`) or
`some (some v)` (Instance Slot holding `v`).  `overides` and
`extensions` keep JavaScript `Map` insertion order, which matters for
iteration during `build`. -/
structure St where
  services : ClassType → Option (Option Value)
  dependencies : ClassType → Option (List Value)
  lifetimes : ClassType → Option Lifetime
  overides : List (ClassType × ClassType)
  parameters : String → Option Value
  extensions : List (ClassType × Value)
  extensionConfig : ClassType → Option Value
  extTypeMap : String → Option ClassType
  compiled : Bool
  heap : Nat → Option Obj
  nextId : Nat

/-- The container's own class identity (used for self-registration in
the constructor: `this.services.set(Container, this)`). -/
def ContainerClass : ClassType := ⟨0, "Container", 0⟩

/-- Initial state after `new Container()` / `new ExtendableContainer()`:
everything empty except the container's own Instance Slot. -/
def initSt : St where
  services := fupd (fun _ => none) ContainerClass (some (some .vcontainer))
  dependencies := fun _ => none
  lifetimes := fun _ => none
  overides := []
  parameters := fun _ => none
  extensions := []
  extensionConfig := fun _ => none
  extTypeMap := fun _ => none
  compiled := false
  heap := fun _ => none
  nextId := 0

/-- Registration.  The self-dependency check and the
`services.set(ctor, null)` / `dependencies.set(ctor, deps)` writes are
from `src/src/Container.ts` (`register`).

Modelled from the spec: the latest `Container` (absent from `src/`, only
its tests, `errors.ts` and the `ExtendableContainer` subclass remain)
additionally takes the lifetime as a third argument (default `SHARED`)
and performs a runtime arity check failing with `ArgumentCountError`
citing `ctor.length` (expected) vs. the given count (spec §4.1,
documented in `src/src/errors.ts`). -/
def register (s : St) (ctor : ClassType) (deps : List Value) (lifetime : Lifetime) :
    Except DIError St :=
  if deps.length ≠ ctor.arity then
    .error (.argumentCount ctor ctor.arity deps.length)
  else if (Value.vclass ctor) ∈ deps then
    .error (.cyclicalDependency ctor)
  else
    .ok { s with
      services := fupd s.services ctor (some none)
      dependencies := fupd s.dependencies ctor (some deps)
      lifetimes := fupd s.lifetimes ctor (some lifetime) }

/-- `singleton(type, deps)`: `register` with lifetime fixed to SHARED. -/
def singleton (s : St) (ctor : ClassType) (deps : List Value) : Except DIError St :=
  register s ctor deps .SHARED

/-- `transient(type, deps)`: `register` with lifetime fixed to TRANSIENT. -/
def transient (s : St) (ctor : ClassType) (deps : List Value) : Except DIError St :=
  register s ctor deps .TRANSIENT

/-- `override(ctor, overrideCtor, dependencies?)` from
`src/src/Container.ts`: rejected after `build` (`OverrideUserError`),
re-arms the base type's Instance Slot, records the override, and — note
the JavaScript `dependencies?.length` truthiness check — copies the base
type's dependency specs to the replacement when `dependencies` is
omitted or empty. -/
def override (s : St) (ctor overrideCtor : ClassType) (dependencies : Option (List Value)) :
    Except DIError St :=
  if s.compiled then
    .error .overrideUser
  else
    let s1 := { s with
      services := fupd s.services ctor (some none)
      overides := alSet s.overides ctor overrideCtor }
    match dependencies with
    | some ds =>
      if ds.length ≠ 0 then
        .ok { s1 with dependencies := fupd s1.dependencies overrideCtor (some ds) }
      else
        match s1.dependencies ctor with
        | some existingDeps =>
          .ok { s1 with dependencies := fupd s1.dependencies overrideCtor (some existingDeps) }
        | none => .ok s1
    | none =>
      match s1.dependencies ctor with
      | some existingDeps =>
        .ok { s1 with dependencies := fupd s1.dependencies overrideCtor (some existingDeps) }
      | none => .ok s1

/-- `new ctor(...args)`: allocate a fresh instance recording its class
and constructor arguments; fields start undefined. -/
def allocate (s : St) (ctor : ClassType) (args : List Value) : Value × St :=
  (.vinst s.nextId,
   { s with
      heap := fupd s.heap s.nextId (some ⟨ctor, args, fun _ => .vundefined⟩)
      nextId := s.nextId + 1 })

mutual

/-- `resolve(ctor, strict)` from `src/src/Container.ts`: requires the
container to be built (`ContainerNotReadyError`), returns the Instance
Slot's occupant when present, otherwise constructs via `createInstance`;
an unregistered type (including any non-class value, for which
`services.has` is false) fails with `ServiceNotFoundError` when strict
and yields `undefined` otherwise.

Modelled from the spec: the lifetime dispatch of the latest `Container`
(absent from `src/`) — with an empty slot, a TRANSIENT type is
constructed afresh and never cached (spec §4.2), while a SHARED (or
default) type is constructed once and cached in the slot.  The slot is
consulted before the lifetime, so an instance installed by `build`'s
override application is returned regardless of the declared lifetime
(spec §3, §9). -/
def resolve : Nat → St → Value → Bool → Except DIError (Value × St)
  | 0, _, _, _ => .error .outOfFuel
  | fuel + 1, s, v, strict =>
    if s.compiled then
      match v with
      | .vclass ctor =>
        match s.services ctor with
        | some (some inst) => .ok (inst, s)
        | some none =>
          if s.lifetimes ctor = some .TRANSIENT then
            createInstance fuel s ctor
          else
            match createInstance fuel s ctor with
            | .error e => .error e
            | .ok (inst, s1) =>
              .ok (inst, { s1 with services := fupd s1.services ctor (some (some inst)) })
        | none =>
          if strict then .error (.serviceNotFound v) else .ok (.vundefined, s)
      | _ => if strict then .error (.serviceNotFound v) else .ok (.vundefined, s)
    else
      .error .containerNotReady

/-- `createInstance(ctor)` from `src/src/Container.ts`: look up the
dependency specs (`|| []`), resolve each one, and invoke the
constructor on the results. -/
def createInstance : Nat → St → ClassType → Except DIError (Value × St)
  | 0, _, _ => .error .outOfFuel
  | fuel + 1, s, ctor =>
    match resolveDeps fuel s ((s.dependencies ctor).getD []) with
    | .error e => .error e
    | .ok (args, s1) => .ok (allocate s1 ctor args)

/-- The dependency mapping `depsCtors.map(d => d?.name ? this.resolve(d) : d)`
from `src/src/Container.ts`, with left-to-right state threading: a spec
with a truthy `name` property is resolved strictly, any other value is
passed through unchanged. -/
def resolveDeps : Nat → St → List Value → Except DIError (List Value × St)
  | 0, _, _ => .error .outOfFuel
  | fuel + 1, s, deps =>
    match deps with
    | [] => .ok ([], s)
    | d :: rest =>
      match (if truthyName d then resolve fuel s d true else .ok (d, s)) with
      | .error e => .error e
      | .ok (inst, s1) =>
        match resolveDeps fuel s1 rest with
        | .error e => .error e
        | .ok (insts, s2) => .ok (inst :: insts, s2)

end

/-- `get(ctor)` = `resolve(ctor, true)` (`src/src/Container.ts`). -/
def get (fuel : Nat) (s : St) (ctor : ClassType) : Except DIError (Value × St) :=
  resolve fuel s (.vclass ctor) true

/-- The `overides.forEach((impl, key) => services.set(key, createInstance(impl)))`
loop of `build` (`src/src/Container.ts`), in Map insertion order. -/
def applyOverrides (fuel : Nat) : St → List (ClassType × ClassType) → Except DIError St
  | s, [] => .ok s
  | s, (key, impl) :: rest =>
    match createInstance fuel s impl with
    | .error e => .error e
    | .ok (inst, s1) =>
      applyOverrides fuel { s1 with services := fupd s1.services key (some (some inst)) } rest

/-- `Container.build()` from `src/src/Container.ts`: set `compiled`,
then eagerly construct every override's replacement into the base
type's Instance Slot. -/
def buildContainer (fuel : Nat) (s : St) : Except DIError St :=
  let s1 := { s with compiled := true }
  applyOverrides fuel s1 s1.overides

/-- The bundle-configuration loop of `ExtendableContainer.build()`
(`src/src/ExtendableContainer.ts`): iterate the extensions in insertion
order and invoke each bundle's `configure` with its stored config (or
`undefined`).

Modelled from the spec: a bundle's `configure` body is arbitrary user
code (typically further `register` calls); it is supplied as the
environment `env`, mapping the bundle class and its config to a state
transformer. -/
def configureExtensions (env : ClassType → Value → St → Except DIError St) :
    St → List (ClassType × Value) → Except DIError St
  | s, [] => .ok s
  | s, (key, _bundleInst) :: rest =>
    match env key ((s.extensionConfig key).getD .vundefined) s with
    | .error e => .error e
    | .ok s1 => configureExtensions env s1 rest

/-- `ExtendableContainer.build()`: `super.build()` then configure every
extension bundle (`src/src/ExtendableContainer.ts`). -/
def build (env : ClassType → Value → St → Except DIError St) (fuel : Nat) (s : St) :
    Except DIError St :=
  match buildContainer fuel s with
  | .error e => .error e
  | .ok s1 => configureExtensions env s1 s1.extensions

/-- `addExtension(bundleCtor, config?)` from
`src/src/ExtendableContainer.ts`: on first addition construct the bundle
instance immediately (zero arguments) and record the name lookup; a
truthy config (`if (config)`) refreshes the stored configuration. -/
def addExtension (s : St) (bundleCtor : ClassType) (config : Value) : St :=
  let s1 :=
    if (alGet s.extensions bundleCtor).isSome then s
    else
      let p := allocate s bundleCtor []
      { p.2 with
          extensions := alSet p.2.extensions bundleCtor p.1
          extTypeMap := fupd p.2.extTypeMap bundleCtor.name (some bundleCtor) }
  if truthyV config then
    { s1 with extensionConfig := fupd s1.extensionConfig bundleCtor (some config) }
  else s1

/-- `getExtension(bundle)` from `src/src/ExtendableContainer.ts`: accept
the bundle class or its stringified name, look the class up in the name
map, and resolve it non-strictly; an unknown name yields `undefined`
without touching the resolver. -/
def getExtension (fuel : Nat) (s : St) (bundle : Sum ClassType String) :
    Except DIError (Value × St) :=
  match s.extTypeMap (match bundle with | .inl c => c.name | .inr nm => nm) with
  | some ctor => resolve fuel s (.vclass ctor) false
  | none => .ok (.vundefined, s)

/-- `setParameter(key, value)` from `src/src/ExtendableContainer.ts`. -/
def setParameter (s : St) (key : String) (value : Value) : St :=
  { s with parameters := fupd s.parameters key (some value) }

/-- `getParameter(key, strict)` from `src/src/ExtendableContainer.ts`:
in strict mode a missing key — or a stored falsy value, by the
`!this.parameters[key]` check — fails with `ParameterNotFoundError`. -/
def getParameter (s : St) (key : String) (strict : Bool) : Except DIError Value :=
  let v := (s.parameters key).getD .vundefined
  if strict && !truthyV v then .error (.parameterNotFound key)
  else .ok v

/-- Write a field through an instance reference (JavaScript
`ref.field = v`). -/
def setField (s : St) (r : Nat) (f : String) (v : Value) : St :=
  match s.heap r with
  | some o => { s with heap := fupd s.heap r (some { o with fields := fupd o.fields f v }) }
  | none => s

/-- Read a field through an instance reference (JavaScript `ref.field`). -/
def getField (s : St) (r : Nat) (f : String) : Value :=
  match s.heap r with
  | some o => o.fields f
  | none => .vundefined

/-- Extract the state from a container operation, defaulting to the
initial state on error (used only to name concrete states). -/
def runExc : Except DIError St → St
  | .ok s => s
  | .error _ => initSt

/-- Extract the result pair of a `get`/`resolve`, defaulting on error. -/
def runGet (fuel : Nat) (s : St) (c : ClassType) : Value × St :=
  match get fuel s c with
  | .ok p => p
  | .error _ => (.vundefined, s)

/-! ## Concrete scenarios

Concrete classes and container states mirroring the repository's test
scenarios (`src/test/Container.spec.ts`,
`src/test/ExtendableContainer.spec.ts`), used to instantiate the
general theorems below. -/

/-- A zero-dependency service class (`MyService` in the tests). -/
def wT : ClassType := ⟨1, "MyService", 0⟩

/-- Built container with `wT` registered SHARED. -/
def wS : St := runExc (buildContainer 1 (runExc (register initSt wT [] .SHARED)))

/-- Result of the first `get(wT)` on `wS`. -/
def wV1 : Value := (runGet 10 wS wT).1

/-- State after the first `get(wT)` on `wS`. -/
def wSa : St := (runGet 10 wS wT).2

/-- A zero-dependency transient class (`MyTransientService`). -/
def uT : ClassType := ⟨2, "MyTransientService", 0⟩

/-- Built container with `uT` registered TRANSIENT. -/
def uS : St := runExc (buildContainer 1 (runExc (register initSt uT [] .TRANSIENT)))

/-- Result of the first `get(uT)` on `uS`. -/
def uV1 : Value := (runGet 10 uS uT).1

/-- State after the first `get(uT)` on `uS`. -/
def uSa : St := (runGet 10 uS uT).2

/-- Result of the second `get(uT)`. -/
def uV2 : Value := (runGet 10 uSa uT).1

/-- State after the second `get(uT)`. -/
def uSb : St := (runGet 10 uSa uT).2

/-- A class whose single dependency spec is a literal object carrying a
truthy `name` own-property. -/
def c4T : ClassType := ⟨3, "Consumer", 1⟩

/-- A literal object with `name: "cfg"` — not a class, yet `d?.name` is
truthy for it. -/
def c4lit : Value := .vlit (some "cfg") 0

/-- Built container with `c4T` registered whose dependency spec list is
`[c4lit]`. -/
def c4S : St := runExc (buildContainer 5 (runExc (register initSt c4T [c4lit] .SHARED)))

/-- A class taking three literal dependencies without `name` properties. -/
def c4wT : ClassType := ⟨4, "Foo", 3⟩

/-- Built container with `c4wT` registered with plain-literal specs. -/
def c4wS : St :=
  runExc (buildContainer 5
    (runExc (register initSt c4wT [.vnum 42, .vbool true, .vlit none 0] .SHARED)))

/-- Base class for the override scenario (`MyClass`, one dependency). -/
def oB : ClassType := ⟨6, "MyClass", 1⟩

/-- The dependency of `oB` (`MyService`). -/
def oX : ClassType := ⟨7, "MyService", 0⟩

/-- Replacement class for the override scenario (`OverrideClass`). -/
def oD : ClassType := ⟨8, "OverrideClass", 1⟩

/-- Container with `oX` and `oB` registered (not yet built). -/
def oS : St :=
  runExc (register (runExc (register initSt oX [] .SHARED)) oB [.vclass oX] .SHARED)

/-- `oS` after `override(oB, oD)` with dependencies omitted. -/
def oS1 : St := runExc (override oS oB oD none)

/-- An environment with no bundle behaviour (no extensions present). -/
def noEnv : ClassType → Value → St → Except DIError St := fun _ _ t => .ok t

/-- `oS1` after `build()`. -/
def oS2 : St := runExc (build noEnv 10 oS1)

/-- The bundle class of the extension scenario (`MyBundle`). -/
def c9B : ClassType := ⟨5, "MyBundle", 0⟩

/-- The bundle's `configure` behaviour: it registers the bundle itself
as a service, as the spec requires of bundles. -/
def c9env : ClassType → Value → St → Except DIError St :=
  fun c _ t => if c = c9B then register t c9B [] .SHARED else .ok t

/-- Built container with the bundle added and configured. -/
def c9S : St := runExc (build c9env 20 (addExtension initSt c9B .vundefined))

/-- Result pair of `getExtension(MyBundle)` on `c9S`. -/
def c9p : Value × St :=
  match getExtension 10 c9S (.inl c9B) with
  | .ok p => p
  | .error _ => (.vundefined, c9S)

/-- The bundle instance returned by `getExtension`. -/
def c9V : Value := c9p.1

/-- State after the first `getExtension`. -/
def c9S1 : St := c9p.2

/-- Re-registration scenario: `wSa` (slot holding the first instance)
after `register(wT, [])` again. -/
def c10S : St := runExc (register wSa wT [] .SHARED)

/-- A state that is compiled but has nothing but the container
registered. -/
def cw6S : St := runExc (buildContainer 1 initSt)

/-! ## Preservation invariants of resolution

Resolution never changes the registry (dependency lists, lifetimes),
the build flag, parameters, overrides or the extension tables; it only
allocates new instances (monotone `nextId`, old heap cells untouched)
and fills Instance Slots of non-TRANSIENT types. -/

/-- State relation preserved by `resolve` / `createInstance` /
`resolveDeps`. -/
structure Pres (s s' : St) : Prop where
  nextId_le : s.nextId ≤ s'.nextId
  compiled_eq : s'.compiled = s.compiled
  lifetimes_eq : s'.lifetimes = s.lifetimes
  dependencies_eq : s'.dependencies = s.dependencies
  overides_eq : s'.overides = s.overides
  parameters_eq : s'.parameters = s.parameters
  extensions_eq : s'.extensions = s.extensions
  extensionConfig_eq : s'.extensionConfig = s.extensionConfig
  extTypeMap_eq : s'.extTypeMap = s.extTypeMap
  transient_services : ∀ c, s.lifetimes c = some .TRANSIENT → s'.services c = s.services c
  heap_old : ∀ r, r < s.nextId → s'.heap r = s.heap r

theorem presRefl (s : St) : Pres s s :=
  ⟨Nat.le_refl _, rfl, rfl, rfl, rfl, rfl, rfl, rfl, rfl,
   fun _ _ => rfl, fun _ _ => rfl⟩

theorem presTrans {a b c : St} (h1 : Pres a b) (h2 : Pres b c) : Pres a c := by
  refine ⟨Nat.le_trans h1.nextId_le h2.nextId_le, ?_, ?_, ?_, ?_, ?_, ?_, ?_, ?_, ?_, ?_⟩
  · rw [h2.compiled_eq, h1.compiled_eq]
  · rw [h2.lifetimes_eq, h1.lifetimes_eq]
  · rw [h2.dependencies_eq, h1.dependencies_eq]
  · rw [h2.overides_eq, h1.overides_eq]
  · rw [h2.parameters_eq, h1.parameters_eq]
  · rw [h2.extensions_eq, h1.extensions_eq]
  · rw [h2.extensionConfig_eq, h1.extensionConfig_eq]
  · rw [h2.extTypeMap_eq, h1.extTypeMap_eq]
  · intro cc hcc
    rw [h2.transient_services cc (by rw [h1.lifetimes_eq]; exact hcc),
        h1.transient_services cc hcc]
  · intro r hr
    rw [h2.heap_old r (Nat.lt_of_lt_of_le hr h1.nextId_le), h1.heap_old r hr]

theorem presAllocate (s : St) (ctor : ClassType) (args : List Value) :
    Pres s (allocate s ctor args).2 := by
  refine ⟨Nat.le_succ _, rfl, rfl, rfl, rfl, rfl, rfl, rfl, rfl, fun _ _ => rfl, ?_⟩
  intro r hr
  show fupd s.heap s.nextId _ r = s.heap r
  unfold fupd
  rw [if_neg (Nat.ne_of_lt hr)]

theorem presCache (s : St) (ctor : ClassType) (inst : Value)
    (hl : s.lifetimes ctor ≠ some .TRANSIENT) :
    Pres s { s with services := fupd s.services ctor (some (some inst)) } := by
  refine ⟨Nat.le_refl _, rfl, rfl, rfl, rfl, rfl, rfl, rfl, rfl, ?_, fun _ _ => rfl⟩
  intro cc hcc
  show fupd s.services ctor _ cc = s.services cc
  unfold fupd
  rw [if_neg]
  intro hEq
  rw [hEq] at hcc
  exact hl hcc

theorem presMain : ∀ fuel : Nat,
    (∀ s v strict w s', resolve fuel s v strict = .ok (w, s') → Pres s s') ∧
    (∀ s c w s', createInstance fuel s c = .ok (w, s') → Pres s s') ∧
    (∀ s ds ws s', resolveDeps fuel s ds = .ok (ws, s') → Pres s s') := by
  intro fuel
  induction fuel with
  | zero =>
    refine ⟨?_, ?_, ?_⟩
    · intro s v strict w s' h
      rw [resolve] at h
      exact absurd h (by simp)
    · intro s c w s' h
      rw [createInstance] at h
      exact absurd h (by simp)
    · intro s ds ws s' h
      rw [resolveDeps] at h
      exact absurd h (by simp)
  | succ n ih =>
    obtain ⟨ihR, ihC, ihD⟩ := ih
    refine ⟨?_, ?_, ?_⟩
    · intro s v strict w s' h
      cases v
      case vclass ctor =>
        simp only [resolve] at h
        split at h
        case isFalse => exact absurd h (by simp)
        split at h
        · -- Instance Slot occupied
          simp only [Except.ok.injEq, Prod.mk.injEq] at h
          obtain ⟨-, h2⟩ := h
          subst h2
          exact presRefl s
        · -- Instance Slot empty
          split at h
          · exact ihC _ _ _ _ h
          · rename_i hl
            split at h
            · exact absurd h (by simp)
            · rename_i inst s1 hci
              simp only [Except.ok.injEq, Prod.mk.injEq] at h
              obtain ⟨-, h2⟩ := h
              subst h2
              refine presTrans (ihC _ _ _ _ hci) (presCache s1 ctor inst ?_)
              rw [(ihC _ _ _ _ hci).lifetimes_eq]
              exact hl
        · -- never registered
          split at h
          · exact absurd h (by simp)
          · simp only [Except.ok.injEq, Prod.mk.injEq] at h
            obtain ⟨-, h2⟩ := h
            subst h2
            exact presRefl s
      all_goals
        simp only [resolve] at h
        split at h <;>
        first
          | exact Except.noConfusion h
          | (split at h <;>
              first
                | exact Except.noConfusion h
                | (simp only [Except.ok.injEq, Prod.mk.injEq] at h
                   obtain ⟨-, h2⟩ := h
                   subst h2
                   exact presRefl s))
    · intro s c w s' h
      simp only [createInstance] at h
      split at h
      · exact absurd h (by simp)
      · rename_i args smid hrd
        simp only [allocate, Except.ok.injEq, Prod.mk.injEq] at h
        obtain ⟨-, h2⟩ := h
        subst h2
        exact presTrans (ihD _ _ _ _ hrd) (presAllocate smid c args)
    · intro s ds ws s' h
      cases ds with
      | nil =>
        simp only [resolveDeps, Except.ok.injEq, Prod.mk.injEq] at h
        obtain ⟨-, h2⟩ := h
        subst h2
        exact presRefl s
      | cons d rest =>
        simp only [resolveDeps] at h
        split at h
        · exact absurd h (by simp)
        · rename_i i1 s1 hr1
          split at h
          · exact absurd h (by simp)
          · rename_i irest s2 hrd
            simp only [Except.ok.injEq, Prod.mk.injEq] at h
            obtain ⟨-, h2⟩ := h
            subst h2
            have hstep : Pres s s1 := by
              by_cases ht : truthyName d = true
              · rw [ht] at hr1
                simp only [if_true] at hr1
                exact ihR _ _ _ _ _ hr1
              · rw [Bool.not_eq_true] at ht
                rw [ht] at hr1
                simp only [Bool.false_eq_true, if_false, Except.ok.injEq,
                  Prod.mk.injEq] at hr1
                obtain ⟨-, hr2⟩ := hr1
                subst hr2
                exact presRefl s
            exact presTrans hstep (ihD _ _ _ _ hrd)

theorem resolve_pres {fuel : Nat} {s : St} {v : Value} {strict : Bool} {w : Value} {s' : St}
    (h : resolve fuel s v strict = .ok (w, s')) : Pres s s' :=
  (presMain fuel).1 _ _ _ _ _ h

theorem createInstance_pres {fuel : Nat} {s : St} {c : ClassType} {w : Value} {s' : St}
    (h : createInstance fuel s c = .ok (w, s')) : Pres s s' :=
  (presMain fuel).2.1 _ _ _ _ h

theorem resolveDeps_pres {fuel : Nat} {s : St} {ds ws : List Value} {s' : St}
    (h : resolveDeps fuel s ds = .ok (ws, s')) : Pres s s' :=
  (presMain fuel).2.2 _ _ _ _ h

/-! ## Shape lemmas for the resolver -/

theorem fupd_self {α β : Type} [DecidableEq α] (m : α → β) (k : α) (v : β) :
    fupd m k v k = v := by
  simp [fupd]

theorem fupd_ne {α β : Type} [DecidableEq α] (m : α → β) (k : α) (v : β) {x : α}
    (h : x ≠ k) : fupd m k v x = m x := by
  simp [fupd, h]

theorem resolve_notReady {fuel : Nat} {s : St} {v : Value} {strict : Bool}
    (hc : s.compiled = false) :
    resolve (fuel + 1) s v strict = .error .containerNotReady := by
  cases v <;> simp [resolve, hc]

theorem resolve_cached {fuel : Nat} {s : St} {c : ClassType} {inst : Value} {strict : Bool}
    (hc : s.compiled = true) (hs : s.services c = some (some inst)) :
    resolve (fuel + 1) s (.vclass c) strict = .ok (inst, s) := by
  simp [resolve, hc, hs]

theorem resolve_transient {fuel : Nat} {s : St} {c : ClassType} {strict : Bool}
    (hc : s.compiled = true) (hs : s.services c = some none)
    (hl : s.lifetimes c = some .TRANSIENT) :
    resolve (fuel + 1) s (.vclass c) strict = createInstance fuel s c := by
  simp [resolve, hc, hs, hl]

theorem resolve_shared_ok {fuel : Nat} {s : St} {c : ClassType} {strict : Bool}
    {inst : Value} {s1 : St}
    (hc : s.compiled = true) (hs : s.services c = some none)
    (hl : s.lifetimes c ≠ some .TRANSIENT)
    (hci : createInstance fuel s c = .ok (inst, s1)) :
    resolve (fuel + 1) s (.vclass c) strict =
      .ok (inst, { s1 with services := fupd s1.services c (some (some inst)) }) := by
  simp [resolve, hc, hs, hl, hci]

theorem resolve_shared_err {fuel : Nat} {s : St} {c : ClassType} {strict : Bool}
    {e : DIError}
    (hc : s.compiled = true) (hs : s.services c = some none)
    (hl : s.lifetimes c ≠ some .TRANSIENT)
    (hci : createInstance fuel s c = .error e) :
    resolve (fuel + 1) s (.vclass c) strict = .error e := by
  simp [resolve, hc, hs, hl, hci]

theorem resolve_unregistered {fuel : Nat} {s : St} {c : ClassType} {strict : Bool}
    (hc : s.compiled = true) (hs : s.services c = none) :
    resolve (fuel + 1) s (.vclass c) strict =
      if strict then .error (.serviceNotFound (.vclass c)) else .ok (.vundefined, s) := by
  simp [resolve, hc, hs]

theorem createInstance_shape {fuel : Nat} {s : St} {c : ClassType} {w : Value} {s' : St}
    (h : createInstance (fuel + 1) s c = .ok (w, s')) :
    ∃ args smid, resolveDeps fuel s ((s.dependencies c).getD []) = .ok (args, smid) ∧
      w = .vinst smid.nextId ∧
      s' = { smid with
              heap := fupd smid.heap smid.nextId (some ⟨c, args, fun _ => .vundefined⟩)
              nextId := smid.nextId + 1 } := by
  simp only [createInstance] at h
  split at h
  · exact Except.noConfusion h
  · rename_i args smid hrd
    simp only [allocate, Except.ok.injEq, Prod.mk.injEq] at h
    obtain ⟨h1, h2⟩ := h
    exact ⟨args, smid, hrd, h1.symm, h2.symm⟩

theorem resolveDeps_literals : ∀ (ds : List Value) (fuel : Nat) (s : St),
    ds.length < fuel → (∀ d ∈ ds, truthyName d = false) →
    resolveDeps fuel s ds = .ok (ds, s) := by
  intro ds
  induction ds with
  | nil =>
    intro fuel s hf _
    cases fuel with
    | zero => omega
    | succ n => simp [resolveDeps]
  | cons d rest ih =>
    intro fuel s hf hall
    cases fuel with
    | zero => exact absurd hf (by omega)
    | succ n =>
      have hd : truthyName d = false := hall d (by simp)
      have hlen : rest.length < n := by
        simp only [List.length_cons] at hf
        omega
      simp only [resolveDeps, hd, Bool.false_eq_true, if_false]
      rw [ih n s hlen (fun x hx => hall x (by simp [hx]))]

theorem override_uncompiled_none (s : St) (B D : ClassType) (ds : List Value)
    (hnc : s.compiled = false) (hdeps : s.dependencies B = some ds) :
    override s B D none = .ok { s with
      services := fupd s.services B (some none)
      overides := alSet s.overides B D
      dependencies := fupd s.dependencies D (some ds) } := by
  simp [override, hnc, hdeps]

theorem applyOverrides_single (fuel : Nat) (t : St) (B D : ClassType) :
    applyOverrides fuel t [(B, D)] =
      match createInstance fuel t D with
      | .error e => .error e
      | .ok p => .ok { p.2 with services := fupd p.2.services B (some (some p.1)) } := by
  cases hci : createInstance fuel t D with
  | error e => simp [applyOverrides, hci]
  | ok p =>
    obtain ⟨inst, sx⟩ := p
    simp [applyOverrides, hci]

theorem buildContainer_eq (fuel : Nat) (t : St) :
    buildContainer fuel t = applyOverrides fuel { t with compiled := true } t.overides := rfl

theorem configureExtensions_nil (env : ClassType → Value → St → Except DIError St)
    (t : St) : configureExtensions env t [] = .ok t := rfl

/-! ## Field read/write on instance references -/

theorem getField_setField_self {s : St} {r : Nat} {f : String} {w : Value} {o : Obj}
    (ho : s.heap r = some o) :
    getField (setField s r f w) r f = w := by
  simp [setField, getField, ho, fupd]

theorem getField_setField_ne {s : St} {r1 r2 : Nat} {f g : String} {w : Value}
    (hne : r1 ≠ r2) :
    getField (setField s r1 f w) r2 g = getField s r2 g := by
  unfold setField
  cases ho : s.heap r1 with
  | none => rfl
  | some o =>
    unfold getField
    show (match fupd s.heap r1 _ r2 with | some o => o.fields g | none => .vundefined) = _
    rw [fupd_ne _ _ _ (Ne.symm hne)]

/-! ## The claims -/

/-- C3: `register(T, deps)` fails with an `ArgumentCountError` citing
the expected (`T`'s declared constructor arity) vs. given count exactly
when the length of `deps` differs from that arity; when the counts
match, no `ArgumentCountError` is raised (the call either succeeds or
fails with a different error). -/
theorem claim_c3_argument_count (s : St) (c : ClassType) (deps : List Value) (lt : Lifetime) :
    (deps.length ≠ c.arity →
      register s c deps lt = .error (.argumentCount c c.arity deps.length)) ∧
    (deps.length = c.arity →
      ∀ c2 e g, register s c deps lt ≠ .error (.argumentCount c2 e g)) := by
  constructor
  · intro h
    simp [register, h]
  · intro h c2 e g hcontra
    unfold register at hcontra
    rw [if_neg (not_ne_iff.mpr h)] at hcontra
    by_cases hm : (Value.vclass c) ∈ deps
    · rw [if_pos hm] at hcontra
      exact DIError.noConfusion (Except.error.inj hcontra)
    · rw [if_neg hm] at hcontra
      exact Except.noConfusion hcontra

/-- Witness for C3: a class of arity 1 registered with zero specs fails
with the counts cited; registered with one spec, no such error. -/
theorem claim_c3_witness :
    register initSt ⟨3, "Database", 1⟩ [] .SHARED
      = .error (.argumentCount ⟨3, "Database", 1⟩ 1 0) ∧
    ∀ c2 e g, register initSt ⟨3, "Database", 1⟩ [.vnum 7] .SHARED
      ≠ .error (.argumentCount c2 e g) :=
  ⟨(claim_c3_argument_count initSt ⟨3, "Database", 1⟩ [] .SHARED).1 (by decide),
   fun c2 e g =>
     (claim_c3_argument_count initSt ⟨3, "Database", 1⟩ [.vnum 7] .SHARED).2 (by decide) c2 e g⟩

/-- C6: for every type (registered or not), `get` and `resolve` before
`build` fail with `ContainerNotReadyError`; `override` after `build`
fails with `OverrideUserError`. -/
theorem claim_c6_build_gating (s s2 : St) (T D : ClassType) (strict : Bool)
    (fuel : Nat) (deps : Option (List Value)) :
    (s.compiled = false →
      resolve (fuel + 1) s (.vclass T) strict = .error .containerNotReady ∧
      get (fuel + 1) s T = .error .containerNotReady) ∧
    (s2.compiled = true → override s2 T D deps = .error .overrideUser) := by
  constructor
  · intro hc
    exact ⟨resolve_notReady hc, resolve_notReady hc⟩
  · intro hc
    simp [override, hc]

/-- Witness for C6: the fresh container is not compiled and rejects
`get`; a built container rejects `override`. -/
theorem claim_c6_witness :
    initSt.compiled = false ∧ cw6S.compiled = true ∧
    get 5 initSt ⟨1, "MyService", 0⟩ = .error .containerNotReady ∧
    override cw6S ⟨1, "MyService", 0⟩ ⟨2, "Impl", 0⟩ none = .error .overrideUser :=
  ⟨rfl, rfl,
   ((claim_c6_build_gating initSt cw6S ⟨1, "MyService", 0⟩ ⟨2, "Impl", 0⟩ true 4 none).1 rfl).2,
   (claim_c6_build_gating initSt cw6S ⟨1, "MyService", 0⟩ ⟨2, "Impl", 0⟩ true 4 none).2 rfl⟩

/-- C7: on a built container, strict resolution (hence `get`) of a type
that was never registered fails with `ServiceNotFoundError` naming that
type, while non-strict resolution returns `undefined` without an
error. -/
theorem claim_c7_strict_failure (s : St) (T : ClassType) (fuel : Nat)
    (hc : s.compiled = true) (hs : s.services T = none) :
    resolve (fuel + 1) s (.vclass T) true = .error (.serviceNotFound (.vclass T)) ∧
    get (fuel + 1) s T = .error (.serviceNotFound (.vclass T)) ∧
    resolve (fuel + 1) s (.vclass T) false = .ok (.vundefined, s) := by
  refine ⟨?_, ?_, ?_⟩
  · rw [@resolve_unregistered fuel s T true hc hs]
    rfl
  · show resolve (fuel + 1) s (.vclass T) true = _
    rw [@resolve_unregistered fuel s T true hc hs]
    rfl
  · rw [@resolve_unregistered fuel s T false hc hs]
    rfl

/-- Witness for C7: on the built empty container, `get` of an
unregistered class fails naming it, non-strict `resolve` yields
`undefined`. -/
theorem claim_c7_witness :
    cw6S.compiled = true ∧ cw6S.services ⟨9, "Ghost", 0⟩ = none ∧
    get 5 cw6S ⟨9, "Ghost", 0⟩ = .error (.serviceNotFound (.vclass ⟨9, "Ghost", 0⟩)) ∧
    resolve 5 cw6S (.vclass ⟨9, "Ghost", 0⟩) false = .ok (.vundefined, cw6S) :=
  ⟨rfl, rfl,
   (claim_c7_strict_failure cw6S ⟨9, "Ghost", 0⟩ 4 rfl rfl).2.1,
   (claim_c7_strict_failure cw6S ⟨9, "Ghost", 0⟩ 4 rfl rfl).2.2⟩

/-- C8 counterexample: the claim "for every value v, after
`setParameter(k, v)`, strict `getParameter(k)` returns exactly v" fails
at the falsy value `false`: the stored value trips the
`!this.parameters[key]` check and strict `getParameter` throws
`ParameterNotFoundError` instead of returning it. -/
theorem claim_c8_counterexample :
    getParameter (setParameter initSt "k" (.vbool false)) "k" true
      = .error (.parameterNotFound "k") ∧
    ∀ w, getParameter (setParameter initSt "k" (.vbool false)) "k" true ≠ .ok w := by
  refine ⟨rfl, ?_⟩
  intro w h
  rw [show getParameter (setParameter initSt "k" (.vbool false)) "k" true
        = .error (.parameterNotFound "k") from rfl] at h
  exact Except.noConfusion h

/-- C8 (amended): after `setParameter(k, v)` with `v` truthy, strict
`getParameter(k)` returns exactly `v`; for a key never set, strict
`getParameter` fails with `ParameterNotFoundError` while
`getParameter(key, false)` returns `undefined` without an error.  (For
falsy stored values strict mode throws as if unset — see the
counterexample.) -/
theorem claim_c8_parameter_roundtrip (s : St) (k k2 : String) (v : Value)
    (hv : truthyV v = true) (hmiss : s.parameters k2 = none) :
    getParameter (setParameter s k v) k true = .ok v ∧
    getParameter s k2 true = .error (.parameterNotFound k2) ∧
    getParameter s k2 false = .ok .vundefined := by
  refine ⟨?_, ?_, ?_⟩
  · simp [getParameter, setParameter, fupd, hv]
  · simp [getParameter, hmiss, truthyV]
  · simp [getParameter, hmiss, truthyV]

/-- C1: on a built container, for a registered type with SHARED
lifetime and an empty Instance Slot whose dependency specs all resolve,
the first `get` constructs a fresh instance of that type, stores it in
the slot, and returns it; every subsequent `get` returns the identical
cached instance with no further state change, and a field mutation made
through the reference returned by one call is observable through the
reference returned by any other call (they are the same reference). -/
theorem claim_c1_shared_identity (fuel : Nat) (s s' : St) (T : ClassType) (v : Value)
    (hc : s.compiled = true)
    (hslot : s.services T = some none)
    (hlt : s.lifetimes T = some .SHARED)
    (hget : get (fuel + 1) s T = .ok (v, s')) :
    (∃ r o, v = .vinst r ∧ s.nextId ≤ r ∧ r < s'.nextId ∧
       s'.heap r = some o ∧ o.cls = T) ∧
    s'.services T = some (some v) ∧
    (∀ fuel2, get (fuel2 + 1) s' T = .ok (v, s')) ∧
    (∀ r f w, v = .vinst r → getField (setField s' r f w) r f = w) := by
  have hl : s.lifetimes T ≠ some .TRANSIENT := by
    rw [hlt]
    intro hcontra
    exact Lifetime.noConfusion (Option.some.inj hcontra)
  unfold get at hget
  cases fuel with
  | zero =>
    rw [resolve_shared_err hc hslot hl
      (show createInstance 0 s T = .error .outOfFuel from rfl)] at hget
    exact Except.noConfusion hget
  | succ m =>
    cases hci : createInstance (m + 1) s T with
    | error e =>
      rw [resolve_shared_err hc hslot hl hci] at hget
      exact Except.noConfusion hget
    | ok p =>
      obtain ⟨inst, s1⟩ := p
      rw [resolve_shared_ok hc hslot hl hci] at hget
      simp only [Except.ok.injEq, Prod.mk.injEq] at hget
      obtain ⟨hv, hs1⟩ := hget
      obtain ⟨args, smid, hrd, hw, hsa⟩ := createInstance_shape hci
      subst hv
      subst hw
      subst hsa
      subst hs1
      have hpres : Pres s smid := resolveDeps_pres hrd
      refine ⟨⟨smid.nextId, ⟨T, args, fun _ => .vundefined⟩, rfl, hpres.nextId_le,
        Nat.lt_succ_self _, ?_, rfl⟩, ?_, ?_, ?_⟩
      · show fupd smid.heap smid.nextId _ smid.nextId = _
        rw [fupd_self]
      · show fupd _ T (some (some _)) T = _
        rw [fupd_self]
      · intro fuel2
        refine resolve_cached ?_ ?_
        · show smid.compiled = true
          rw [hpres.compiled_eq]
          exact hc
        · show fupd _ T (some (some _)) T = _
          rw [fupd_self]
      · intro r f w hvr
        obtain rfl : smid.nextId = r := Value.vinst.inj hvr
        refine getField_setField_self (o := ⟨T, args, fun _ => .vundefined⟩) ?_
        show fupd smid.heap smid.nextId _ smid.nextId = _
        rw [fupd_self]

/-- Witness for C1: the `MyService` scenario — register, build, two
`get` calls return the identical cached instance. -/
theorem claim_c1_witness :
    wS.compiled = true ∧ wS.services wT = some none ∧
    wS.lifetimes wT = some .SHARED ∧
    get 10 wS wT = .ok (wV1, wSa) ∧
    wSa.services wT = some (some wV1) ∧
    get 7 wSa wT = .ok (wV1, wSa) :=
  ⟨rfl, rfl, rfl, rfl,
   (claim_c1_shared_identity 9 wS wSa wT wV1 rfl rfl rfl rfl).2.1,
   (claim_c1_shared_identity 9 wS wSa wT wV1 rfl rfl rfl rfl).2.2.1 6⟩

/-- C2: on a built container, for a registered type with TRANSIENT
lifetime (and an empty Instance Slot, i.e. not overridden), every `get`
constructs a fresh instance of that type through the same dependency
resolution and never caches it: two consecutive `get` calls return
distinct references, the slot stays empty after each call, and mutating
a field through one reference does not affect the other. -/
theorem claim_c2_transient_distinct (fuel1 fuel2 : Nat) (s s1 s2 : St) (T : ClassType)
    (v1 v2 : Value)
    (hc : s.compiled = true)
    (hslot : s.services T = some none)
    (hlt : s.lifetimes T = some .TRANSIENT)
    (h1 : get (fuel1 + 1) s T = .ok (v1, s1))
    (h2 : get (fuel2 + 1) s1 T = .ok (v2, s2)) :
    ∃ r1 r2 o1 o2,
      v1 = .vinst r1 ∧ v2 = .vinst r2 ∧ r1 ≠ r2 ∧
      s.nextId ≤ r1 ∧ s1.nextId ≤ r2 ∧
      s1.services T = some none ∧ s2.services T = some none ∧
      s2.heap r1 = some o1 ∧ o1.cls = T ∧
      s2.heap r2 = some o2 ∧ o2.cls = T ∧
      (∀ f w, getField (setField s2 r1 f w) r2 f = getField s2 r2 f) ∧
      (∀ f w, getField (setField s2 r2 f w) r1 f = getField s2 r1 f) := by
  unfold get at h1 h2
  rw [resolve_transient hc hslot hlt] at h1
  cases fuel1 with
  | zero => simp [createInstance] at h1
  | succ m1 =>
    obtain ⟨args1, smidA, hrdA, hw1, hsA⟩ := createInstance_shape h1
    have hpresA : Pres s smidA := resolveDeps_pres hrdA
    have hs1slot : s1.services T = some none := by
      rw [hsA]
      show smidA.services T = some none
      rw [hpresA.transient_services T hlt]
      exact hslot
    have hs1lt : s1.lifetimes T = some .TRANSIENT := by
      rw [hsA]
      show smidA.lifetimes T = _
      rw [hpresA.lifetimes_eq]
      exact hlt
    have hs1c : s1.compiled = true := by
      rw [hsA]
      show smidA.compiled = true
      rw [hpresA.compiled_eq]
      exact hc
    rw [resolve_transient hs1c hs1slot hs1lt] at h2
    cases fuel2 with
    | zero => simp [createInstance] at h2
    | succ m2 =>
      obtain ⟨args2, smidB, hrdB, hw2, hsB⟩ := createInstance_shape h2
      have hpresB : Pres s1 smidB := resolveDeps_pres hrdB
      have hr1lt : smidA.nextId < s1.nextId := by
        rw [hsA]
        exact Nat.lt_succ_self _
      have hr2ge : s1.nextId ≤ smidB.nextId := hpresB.nextId_le
      have hne : smidA.nextId ≠ smidB.nextId := by omega
      have hheap2 : s2.heap smidB.nextId = some ⟨T, args2, fun _ => .vundefined⟩ := by
        rw [hsB]
        show fupd smidB.heap smidB.nextId _ smidB.nextId = _
        rw [fupd_self]
      have hheap1s1 : s1.heap smidA.nextId = some ⟨T, args1, fun _ => .vundefined⟩ := by
        rw [hsA]
        show fupd smidA.heap smidA.nextId _ smidA.nextId = _
        rw [fupd_self]
      have hheap1 : s2.heap smidA.nextId = some ⟨T, args1, fun _ => .vundefined⟩ := by
        rw [hsB]
        show fupd smidB.heap smidB.nextId _ smidA.nextId = _
        rw [fupd_ne _ _ _ hne, hpresB.heap_old _ hr1lt, hheap1s1]
      have hs2slot : s2.services T = some none := by
        rw [hsB]
        show smidB.services T = some none
        rw [hpresB.transient_services T hs1lt]
        exact hs1slot
      refine ⟨smidA.nextId, smidB.nextId, ⟨T, args1, fun _ => .vundefined⟩,
        ⟨T, args2, fun _ => .vundefined⟩, hw1, hw2, hne, hpresA.nextId_le, hr2ge,
        hs1slot, hs2slot, hheap1, rfl, hheap2, rfl, ?_, ?_⟩
      · intro f w
        exact getField_setField_ne hne
      · intro f w
        exact getField_setField_ne (Ne.symm hne)

/-- Witness for C2: the `MyTransientService` scenario — two `get` calls
yield distinct, independently mutable instances, with nothing cached. -/
theorem claim_c2_witness :
    uS.compiled = true ∧ uS.services uT = some none ∧
    uS.lifetimes uT = some .TRANSIENT ∧
    get 10 uS uT = .ok (uV1, uSa) ∧ get 10 uSa uT = .ok (uV2, uSb) ∧
    ∃ r1 r2 o1 o2,
      uV1 = .vinst r1 ∧ uV2 = .vinst r2 ∧ r1 ≠ r2 ∧
      uS.nextId ≤ r1 ∧ uSa.nextId ≤ r2 ∧
      uSa.services uT = some none ∧ uSb.services uT = some none ∧
      uSb.heap r1 = some o1 ∧ o1.cls = uT ∧
      uSb.heap r2 = some o2 ∧ o2.cls = uT ∧
      (∀ f w, getField (setField uSb r1 f w) r2 f = getField uSb r2 f) ∧
      (∀ f w, getField (setField uSb r2 f w) r1 f = getField uSb r1 f) :=
  ⟨rfl, rfl, rfl, rfl, rfl,
   claim_c2_transient_distinct 9 9 uS uSa uSb uT uV1 uV2 rfl rfl rfl rfl rfl⟩

/-- C4 counterexample: the claim "every dependency spec that is a
literal value (not a reference to a registered type) is passed through
unchanged, for every literal value" fails: a literal object with a
truthy `name` own-property (here `{ name: "cfg" }`) is mistaken for a
type reference by the `d?.name` check and strictly resolved, so `get`
fails with `ServiceNotFoundError` naming the literal instead of passing
it through to the constructor. -/
theorem claim_c4_counterexample :
    c4S.compiled = true ∧ c4S.dependencies c4T = some [c4lit] ∧
    truthyName c4lit = true ∧
    get 10 c4S c4T = .error (.serviceNotFound c4lit) :=
  ⟨rfl, rfl, rfl, rfl⟩

/-- C4 (amended): during resolution of a registered type, every
dependency spec whose `name` property is absent or falsy — which covers
primitives, `null`/`undefined`, and literal objects without a truthy
`name` — is passed through unchanged as the corresponding constructor
argument; only specs with a truthy `name` property (as every named
class reference has) are recursively resolved.  A literal carrying a
truthy `name` is treated as a type reference instead (see the
counterexample). -/
theorem claim_c4_literal_passthrough (fuel : Nat) (s : St) (T : ClassType)
    (ds : List Value)
    (hc : s.compiled = true)
    (hslot : s.services T = some none)
    (hdeps : s.dependencies T = some ds)
    (hall : ∀ d ∈ ds, truthyName d = false)
    (hlen : ds.length + 1 < fuel) :
    ∃ r s', get (fuel + 1) s T = .ok (.vinst r, s') ∧
      ∃ o, s'.heap r = some o ∧ o.cls = T ∧ o.args = ds := by
  cases fuel with
  | zero => exact absurd hlen (by omega)
  | succ m =>
    have hci : createInstance (m + 1) s T =
        .ok (allocate s T ds) := by
      simp only [createInstance, hdeps, Option.getD]
      rw [resolveDeps_literals ds m s (by omega) hall]
    unfold get
    by_cases hl : s.lifetimes T = some .TRANSIENT
    · rw [resolve_transient hc hslot hl, hci]
      refine ⟨s.nextId, (allocate s T ds).2, rfl, ⟨T, ds, fun _ => .vundefined⟩, ?_, rfl, rfl⟩
      show fupd s.heap s.nextId _ s.nextId = _
      rw [fupd_self]
    · rw [resolve_shared_ok hc hslot hl hci]
      refine ⟨s.nextId,
        { (allocate s T ds).2 with
            services := fupd (allocate s T ds).2.services T (some (some (.vinst s.nextId))) },
        rfl, ⟨T, ds, fun _ => .vundefined⟩, ?_, rfl, rfl⟩
      show fupd s.heap s.nextId _ s.nextId = _
      rw [fupd_self]

/-- Witness for C4 (amended): three plain literal specs (a number, a
boolean and a name-less object) are injected verbatim. -/
theorem claim_c4_witness :
    c4wS.compiled = true ∧ c4wS.services c4wT = some none ∧
    c4wS.dependencies c4wT = some [.vnum 42, .vbool true, .vlit none 0] ∧
    ∃ r s', get 10 c4wS c4wT = .ok (.vinst r, s') ∧
      ∃ o, s'.heap r = some o ∧ o.cls = c4wT ∧
        o.args = [.vnum 42, .vbool true, .vlit none 0] :=
  ⟨rfl, rfl, rfl,
   claim_c4_literal_passthrough 9 c4wS c4wT [.vnum 42, .vbool true, .vlit none 0]
     rfl rfl rfl (by decide) (by decide)⟩

/-- C5: after `override(Base, Derived)` (dependencies omitted) on an
unbuilt container where `Base` is registered with dependency specs
`ds`, `build()` copies `ds` to `Derived`, eagerly constructs the
replacement — resolving `ds` through the normal dependency resolution —
and installs the constructed `Derived` instance directly into `Base`'s
Instance Slot, so that every subsequent `get(Base)` returns that same
instance (shared behaviour, with no assumption on `Base`'s declared
lifetime). -/
theorem claim_c5_override_substitution (fuel : Nat)
    (env : ClassType → Value → St → Except DIError St)
    (s s1 s2 : St) (B D : ClassType) (ds : List Value)
    (hnc : s.compiled = false)
    (hdeps : s.dependencies B = some ds)
    (hnoov : s.overides = [])
    (hnoext : s.extensions = [])
    (hov : override s B D none = .ok s1)
    (hbuild : build env (fuel + 1) s1 = .ok s2) :
    s1.dependencies D = some ds ∧
    ∃ r o, s2.services B = some (some (.vinst r)) ∧
      s2.heap r = some o ∧ o.cls = D ∧
      (∃ smid, resolveDeps fuel { s1 with compiled := true } ds = .ok (o.args, smid)) ∧
      (∀ fuel2, get (fuel2 + 1) s2 B = .ok (.vinst r, s2)) := by
  rw [override_uncompiled_none s B D ds hnc hdeps] at hov
  have hs1 := Except.ok.inj hov
  have hs1deps : s1.dependencies D = some ds := by
    rw [← hs1]
    show fupd s.dependencies D (some ds) D = some ds
    rw [fupd_self]
  have hs1ov : s1.overides = [(B, D)] := by
    rw [← hs1]
    show alSet s.overides B D = _
    rw [hnoov]
    rfl
  have hs1ext : s1.extensions = [] := by
    rw [← hs1]
    exact hnoext
  unfold build at hbuild
  rw [buildContainer_eq] at hbuild
  rw [hs1ov] at hbuild
  rw [applyOverrides_single] at hbuild
  cases hci : createInstance (fuel + 1)
      { s1 with overides := [(B, D)], compiled := true } D with
  | error e =>
    simp only [hci] at hbuild
    exact Except.noConfusion hbuild
  | ok p =>
    obtain ⟨inst, sx⟩ := p
    have hpres : Pres { s1 with overides := [(B, D)], compiled := true } sx :=
      createInstance_pres hci
    have hext : sx.extensions = [] := by
      rw [hpres.extensions_eq]
      exact hs1ext
    simp only [hci, hext] at hbuild
    rw [configureExtensions_nil] at hbuild
    have hs2 := Except.ok.inj hbuild
    obtain ⟨args, smid, hrd, hw, hsx⟩ := createInstance_shape hci
    subst hw
    have hgd : (({ s1 with overides := [(B, D)], compiled := true } : St).dependencies D).getD []
        = ds := by
      show (s1.dependencies D).getD [] = ds
      rw [hs1deps]
      rfl
    rw [hgd] at hrd
    have hSCeq : ({ s1 with compiled := true } : St)
        = { s1 with overides := [(B, D)], compiled := true } := by
      rw [hs1ov]
    refine ⟨hs1deps, smid.nextId, ⟨D, args, fun _ => .vundefined⟩, ?_, ?_, rfl, ?_, ?_⟩
    · rw [← hs2]
      show fupd sx.services B _ B = _
      rw [fupd_self]
    · rw [← hs2]
      show sx.heap smid.nextId = _
      rw [hsx]
      show fupd smid.heap smid.nextId _ smid.nextId = _
      rw [fupd_self]
    · exact ⟨smid, by rw [hSCeq]; exact hrd⟩
    · intro fuel2
      refine resolve_cached ?_ ?_
      · rw [← hs2]
        show sx.compiled = true
        rw [hpres.compiled_eq]
      · rw [← hs2]
        show fupd sx.services B _ B = _
        rw [fupd_self]

/-- Witness for C5: `MyClass` (depending on `MyService`) overridden by
`OverrideClass`; after `build`, `get(MyClass)` returns the eagerly
constructed `OverrideClass` instance with the dependency injected. -/
theorem claim_c5_witness :
    oS.compiled = false ∧ oS.dependencies oB = some [.vclass oX] ∧
    oS.overides = [] ∧ oS.extensions = [] ∧
    override oS oB oD none = .ok oS1 ∧
    build noEnv 10 oS1 = .ok oS2 ∧
    (oS1.dependencies oD = some [.vclass oX] ∧
      ∃ r o, oS2.services oB = some (some (.vinst r)) ∧
        oS2.heap r = some o ∧ o.cls = oD ∧
        (∃ smid, resolveDeps 9 { oS1 with compiled := true } [.vclass oX]
          = .ok (o.args, smid)) ∧
        (∀ fuel2, get (fuel2 + 1) oS2 oB = .ok (.vinst r, oS2))) :=
  ⟨rfl, rfl, rfl, rfl, rfl, rfl,
   claim_c5_override_substitution 9 noEnv oS oS1 oS2 oB oD [.vclass oX]
     rfl rfl rfl rfl rfl rfl⟩

/-- C9: on a built container whose extension name map knows the bundle
class under its stringified name, with the bundle registered as a
SHARED service by its own `configure` and not yet resolved,
`getExtension` by the class and `getExtension` by the name string
return the same instance; and for a name the map does not know (the
bundle was never added), `getExtension` returns `undefined` without an
error, on any state. -/
theorem claim_c9_extension_visibility (fuel fuel2 : Nat) (s s1 : St) (B : ClassType)
    (v : Value)
    (hc : s.compiled = true)
    (hmap : s.extTypeMap B.name = some B)
    (hslot : s.services B = some none)
    (hlt : s.lifetimes B = some .SHARED)
    (hok : getExtension (fuel + 1) s (.inl B) = .ok (v, s1)) :
    (∃ r, v = .vinst r) ∧
    getExtension (fuel2 + 1) s1 (.inr B.name) = .ok (v, s1) ∧
    (∀ (t : St) (C : ClassType) (m : Nat), t.extTypeMap C.name = none →
      getExtension m t (.inl C) = .ok (.vundefined, t)) := by
  have hl : s.lifetimes B ≠ some .TRANSIENT := by
    rw [hlt]
    intro hco
    exact Lifetime.noConfusion (Option.some.inj hco)
  unfold getExtension at hok
  simp only [hmap] at hok
  cases fuel with
  | zero =>
    rw [resolve_shared_err hc hslot hl
      (show createInstance 0 s B = .error .outOfFuel from rfl)] at hok
    exact Except.noConfusion hok
  | succ m =>
    cases hci : createInstance (m + 1) s B with
    | error e =>
      rw [resolve_shared_err hc hslot hl hci] at hok
      exact Except.noConfusion hok
    | ok p =>
      obtain ⟨inst, sx⟩ := p
      rw [resolve_shared_ok hc hslot hl hci] at hok
      simp only [Except.ok.injEq, Prod.mk.injEq] at hok
      obtain ⟨hv, hs1⟩ := hok
      subst hv
      obtain ⟨args, smid, hrd, hw, hsx⟩ := createInstance_shape hci
      subst hw
      refine ⟨⟨smid.nextId, rfl⟩, ?_, ?_⟩
      · unfold getExtension
        have hmap1 : s1.extTypeMap B.name = some B := by
          rw [← hs1]
          show sx.extTypeMap B.name = some B
          rw [(createInstance_pres hci).extTypeMap_eq]
          exact hmap
        simp only [hmap1]
        refine resolve_cached ?_ ?_
        · rw [← hs1]
          show sx.compiled = true
          rw [(createInstance_pres hci).compiled_eq]
          exact hc
        · rw [← hs1]
          show fupd sx.services B _ B = _
          rw [fupd_self]
      · intro t C m2 hnone
        unfold getExtension
        simp only [hnone]

/-- Witness for C9: the `MyBundle` scenario — after `addExtension` and
`build` (with `configure` registering the bundle), lookup by class and
by the string name yield the same instance; an unknown bundle yields
`undefined`. -/
theorem claim_c9_witness :
    c9S.compiled = true ∧ c9S.extTypeMap "MyBundle" = some c9B ∧
    c9S.services c9B = some none ∧ c9S.lifetimes c9B = some .SHARED ∧
    getExtension 10 c9S (.inl c9B) = .ok (c9V, c9S1) ∧
    (∃ r, c9V = .vinst r) ∧
    getExtension 10 c9S1 (.inr "MyBundle") = .ok (c9V, c9S1) ∧
    getExtension 10 initSt (.inl ⟨11, "NoBundle", 0⟩) = .ok (.vundefined, initSt) :=
  ⟨rfl, rfl, rfl, rfl, rfl,
   (claim_c9_extension_visibility 9 9 c9S c9S1 c9B c9V rfl rfl rfl rfl rfl).1,
   (claim_c9_extension_visibility 9 9 c9S c9S1 c9B c9V rfl rfl rfl rfl rfl).2.1,
   (claim_c9_extension_visibility 9 9 c9S c9S1 c9B c9V rfl rfl rfl rfl rfl).2.2
     initSt ⟨11, "NoBundle", 0⟩ 10 rfl⟩

/-- C10: re-registering a type always resets its Instance Slot to
empty — even when an instance was already cached — while leaving every
other type's slot, dependency list and lifetime unchanged, and leaving
the flag, heap, allocation counter, parameters and overrides untouched;
a subsequent successful `get` then constructs a fresh instance that is
not reference-equal to the previously cached one, and caches it when
the new lifetime is SHARED. -/
theorem claim_c10_register_resets (s s' : St) (T : ClassType) (ds : List Value)
    (lt : Lifetime) (r : Nat)
    (hprev : s.services T = some (some (.vinst r)))
    (hr : r < s.nextId)
    (hreg : register s T ds lt = .ok s') :
    s'.services T = some none ∧
    s'.dependencies T = some ds ∧
    s'.lifetimes T = some lt ∧
    (∀ U, U ≠ T → s'.services U = s.services U ∧ s'.dependencies U = s.dependencies U ∧
      s'.lifetimes U = s.lifetimes U) ∧
    s'.compiled = s.compiled ∧ s'.heap = s.heap ∧ s'.nextId = s.nextId ∧
    s'.parameters = s.parameters ∧ s'.overides = s.overides ∧
    (∀ fuel v s2, get (fuel + 1) s' T = .ok (v, s2) →
      ∃ r2, v = .vinst r2 ∧ r2 ≠ r ∧ (lt = .SHARED → s2.services T = some (some v))) := by
  unfold register at hreg
  by_cases h1 : ds.length ≠ T.arity
  · rw [if_pos h1] at hreg
    exact Except.noConfusion hreg
  · rw [if_neg h1] at hreg
    by_cases h2 : (Value.vclass T) ∈ ds
    · rw [if_pos h2] at hreg
      exact Except.noConfusion hreg
    · rw [if_neg h2] at hreg
      have hs' := Except.ok.inj hreg
      have hslotT : s'.services T = some none := by
        rw [← hs']
        show fupd s.services T (some none) T = _
        rw [fupd_self]
      have hltT : s'.lifetimes T = some lt := by
        rw [← hs']
        show fupd s.lifetimes T (some lt) T = _
        rw [fupd_self]
      have hnext : s'.nextId = s.nextId := by rw [← hs']
      refine ⟨hslotT, ?_, hltT, ?_, ?_, ?_, hnext, ?_, ?_, ?_⟩
      · rw [← hs']
        show fupd s.dependencies T (some ds) T = _
        rw [fupd_self]
      · intro U hU
        refine ⟨?_, ?_, ?_⟩
        · rw [← hs']
          show fupd s.services T (some none) U = _
          rw [fupd_ne _ _ _ hU]
        · rw [← hs']
          show fupd s.dependencies T (some ds) U = _
          rw [fupd_ne _ _ _ hU]
        · rw [← hs']
          show fupd s.lifetimes T (some lt) U = _
          rw [fupd_ne _ _ _ hU]
      · rw [← hs']
      · rw [← hs']
      · rw [← hs']
      · rw [← hs']
      · intro fuel v s2 hget
        unfold get at hget
        cases hcomp : s'.compiled with
        | false =>
          rw [resolve_notReady hcomp] at hget
          exact Except.noConfusion hget
        | true =>
          cases lt with
          | TRANSIENT =>
            rw [resolve_transient hcomp hslotT hltT] at hget
            cases fuel with
            | zero => simp [createInstance] at hget
            | succ m =>
              obtain ⟨args, smid, hrd, hw, hsx⟩ := createInstance_shape hget
              have hge : s'.nextId ≤ smid.nextId := (resolveDeps_pres hrd).nextId_le
              refine ⟨smid.nextId, hw, by omega, ?_⟩
              intro heq
              exact Lifetime.noConfusion heq
          | SHARED =>
            have hl : s'.lifetimes T ≠ some .TRANSIENT := by
              rw [hltT]
              intro hco
              exact Lifetime.noConfusion (Option.some.inj hco)
            cases fuel with
            | zero =>
              rw [resolve_shared_err hcomp hslotT hl
                (show createInstance 0 s' T = .error .outOfFuel from rfl)] at hget
              exact Except.noConfusion hget
            | succ m =>
              cases hci : createInstance (m + 1) s' T with
              | error e =>
                rw [resolve_shared_err hcomp hslotT hl hci] at hget
                exact Except.noConfusion hget
              | ok p =>
                obtain ⟨inst, sx⟩ := p
                rw [resolve_shared_ok hcomp hslotT hl hci] at hget
                simp only [Except.ok.injEq, Prod.mk.injEq] at hget
                obtain ⟨hv, hs2⟩ := hget
                subst hv
                obtain ⟨args, smid, hrd, hw, hsx⟩ := createInstance_shape hci
                subst hw
                have hge : s'.nextId ≤ smid.nextId := (resolveDeps_pres hrd).nextId_le
                refine ⟨smid.nextId, rfl, by omega, ?_⟩
                intro _
                rw [← hs2]
                show fupd sx.services T _ T = _
                rw [fupd_self]

/-- Witness for C10: after `get` cached instance 0 for `MyService`,
re-registering it empties the slot and the next `get` returns the
distinct fresh instance 1. -/
theorem claim_c10_witness :
    wSa.services wT = some (some (.vinst 0)) ∧ 0 < wSa.nextId ∧
    register wSa wT [] .SHARED = .ok c10S ∧
    c10S.services wT = some none ∧
    (∃ r2, (runGet 10 c10S wT).1 = .vinst r2 ∧ r2 ≠ 0 ∧
      (Lifetime.SHARED = .SHARED →
        (runGet 10 c10S wT).2.services wT = some (some ((runGet 10 c10S wT).1)))) :=
  ⟨rfl, by decide, rfl,
   (claim_c10_register_resets wSa c10S wT [] .SHARED 0 rfl (by decide) rfl).1,
   (claim_c10_register_resets wSa c10S wT [] .SHARED 0 rfl (by decide) rfl).2.2.2.2.2.2.2.2.2
     9 (runGet 10 c10S wT).1 (runGet 10 c10S wT).2 rfl⟩

/-- Witness for C8: round trip at the truthy value 42 and a missing
key on the fresh container. -/
theorem claim_c8_witness :
    truthyV (.vnum 42) = true ∧ initSt.parameters "missing" = none ∧
    getParameter (setParameter initSt "k" (.vnum 42)) "k" true = .ok (.vnum 42) ∧
    getParameter initSt "missing" true = .error (.parameterNotFound "missing") ∧
    getParameter initSt "missing" false = .ok .vundefined :=
  ⟨rfl, rfl,
   (claim_c8_parameter_roundtrip initSt "k" "missing" (.vnum 42) rfl rfl).1,
   (claim_c8_parameter_roundtrip initSt "k" "missing" (.vnum 42) rfl rfl).2.1,
   (claim_c8_parameter_roundtrip initSt "k" "missing" (.vnum 42) rfl rfl).2.2⟩

end DI
